import Mathlib

/-!
Shallow embedding of the document-segmentation and retrieval-ranking core of the
counselor-rag backend (src/backend/soap_parser.py and src/backend/rag_engine.py),
together with proofs settling the frozen claims about it.

Text is modelled as `List Char`; Python floats are modelled as exact rationals;
the regular expressions of the parser are embedded as explicit first-match
scanners that follow the semantics of the source patterns under
`re.MULTILINE | re.DOTALL` with case-insensitive matching.
-/

/-- Characters of a string literal, the basic text representation used here. -/
def strL (s : String) : List Char := s.data

/-- Python `\s` (ASCII whitespace as used by the notes handled here). -/
def isPySpace (c : Char) : Bool :=
  c = ' ' || c = '\t' || c = '\n' || c = '\r' || c = '\x0b' || c = '\x0c'

/-- Python `\w` word character (ASCII letters, digits, underscore). -/
def isWordChar (c : Char) : Bool := c.isAlphanum || c = '_'

/-- Lower-casing of a text, modelling Python `str.lower()`. -/
def lowerL (l : List Char) : List Char := l.map Char.toLower

/-- Drop leading whitespace, modelling a greedy leading `\s*`. -/
def skipWs (l : List Char) : List Char := l.dropWhile isPySpace

/-- Python `str.strip()`: remove leading and trailing whitespace. -/
def stripL (l : List Char) : List Char :=
  (((l.dropWhile isPySpace).reverse).dropWhile isPySpace).reverse

/-- Python substring test `needle in hay`. -/
def containsSub (needle : List Char) : List Char → Bool
  | [] => needle.isEmpty
  | c :: rest => needle.isPrefixOf (c :: rest) || containsSub needle rest

/-- Case-insensitive literal prefix: `kw` is given lower-cased; on success the
remaining suffix of the text is returned. -/
def dropPrefixCI : List Char → List Char → Option (List Char)
  | [], t => some t
  | _ :: _, [] => none
  | k :: ks, c :: cs => if c.toLower = k then dropPrefixCI ks cs else none

/-- Does the text start with one of the header delimiter characters `[:|-]`? -/
def classHead : List Char → Bool
  | c :: _ => c = ':' || c = '|' || c = '-'
  | [] => false

/-- The header separator `\s*[:|-]?\s*` that follows a section header word:
greedily skip whitespace, optionally consume one delimiter, skip whitespace. -/
def skipHdrSep (l : List Char) : List Char :=
  match skipWs l with
  | c :: rest => if c = ':' || c = '|' || c = '-' then skipWs rest else c :: rest
  | [] => []

/-- Is position `p` a line start (`^` under `re.MULTILINE`)? -/
def lineStart (t : List Char) (p : Nat) : Bool :=
  p = 0 || t[p-1]? = some '\n'

/-- Does `$` match at position `p` under `re.MULTILINE` (end of text or before a
newline)? -/
def dollarAt (t : List Char) (p : Nat) : Bool :=
  p = t.length || t[p]? = some '\n'

/-- Case-insensitive single character test at a position. -/
def charCIAt (t : List Char) (p : Nat) (c : Char) : Bool :=
  match t[p]? with
  | some d => d.toLower = c
  | none => false

/-- Is the character at position `p` one of `[:|-]`? -/
def classAt (t : List Char) (p : Nat) : Bool :=
  t[p]? = some ':' || t[p]? = some '|' || t[p]? = some '-'

/-- Index in `t` of a suffix of `t` (used to turn suffix-based scanning back
into positions). -/
def idxAfter (t suffix : List Char) : Nat := t.length - suffix.length

/-- The capture of a lazy group `(.*?)(?=LA|$)` starting at position `s` under
`re.DOTALL`: the shortest span ending at the first position where the lookahead
(or multiline `$`) succeeds. -/
def lazyCapture (t : List Char) (s : Nat) (la : Nat → Bool) : List Char :=
  match (List.range' s (t.length + 1 - s)).find? (fun p => dollarAt t p || la p) with
  | some e => (t.drop s).take (e - s)
  | none => t.drop s

/-- Leftmost-match scan: try a match attempt at every position, first success
wins (the capture of `re.findall(...)[0]`). -/
def firstCapture (t : List Char) (attempt : Nat → Option (List Char)) : Option (List Char) :=
  (List.range (t.length + 1)).findSome? attempt

/- ## SOAP keyword configuration (soap_parser.py lines 81-86) -/

def subjective_keywords : List (List Char) :=
  [strL "client reports", strL "client states", strL "patient says",
   strL "reports feeling", strL "described", strL "expressed"]

def objective_keywords : List (List Char) :=
  [strL "observed", strL "during session", strL "appeared",
   strL "demonstrated", strL "exhibited", strL "noted"]

def assessment_keywords : List (List Char) :=
  [strL "diagnosis", strL "assessment", strL "impression",
   strL "clinical opinion", strL "meets criteria", strL "symptoms indicate"]

def plan_keywords : List (List Char) :=
  [strL "homework", strL "intervention", strL "treatment plan",
   strL "next session", strL "goals", strL "recommended", strL "follow-up"]

/-- The four keyword categories of `soap_indicators`. -/
def soap_indicators : List (List (List Char)) :=
  [subjective_keywords, objective_keywords, assessment_keywords, plan_keywords]

/- ## SectionDetector (detect_soap_format, soap_parser.py lines 88-111) -/

/-- One explicit header pattern `(?i)\bKW\s*[:|-]`: somewhere in the text, at a
word boundary, the (lower-cased) keyword followed by optional whitespace and a
delimiter. -/
def headerPatternFound (kw : List Char) (t : List Char) : Bool :=
  (List.range (t.length + 1)).any (fun p =>
    (p = 0 || !isWordChar ((t[p-1]?).getD ' ')) &&
    (match dropPrefixCI kw (t.drop p) with
     | some r => classHead (skipWs r)
     | none => false))

/-- The eight explicit header patterns of the detector, in source order. -/
def explicit_header_patterns : List (List Char) :=
  [strL "s", strL "subjective", strL "o", strL "objective",
   strL "a", strL "assessment", strL "p", strL "plan"]

/-- Number of explicit header patterns that match the text. -/
def explicit_header_count (t : List Char) : Nat :=
  explicit_header_patterns.countP (fun kw => headerPatternFound kw t)

/-- Number of keyword categories with at least one keyword occurring in the
lower-cased text. -/
def keyword_category_count (t : List Char) : Nat :=
  soap_indicators.countP (fun kws => kws.any (fun k => containsSub k (lowerL t)))

/-- `detect_soap_format`: true immediately when at least two explicit header
patterns match, otherwise true iff keywords from at least two categories are
present. -/
def detect_soap_format (t : List Char) : Bool :=
  if 2 ≤ explicit_header_count t then true
  else decide (2 ≤ keyword_category_count t)

/- ## SectionSegmenter: the sixteen extraction patterns of `soap_patterns`
(soap_parser.py lines 53-78), evaluated with `re.MULTILINE | re.DOTALL`.

Each matcher returns the capture group of the first (leftmost) match, the value
`re.findall(pattern, text, ...)[0]` read by `parse_soap_note`.  The lazy groups
`(.*?)(?=LA|$)` always succeed (the `$` alternative holds at the end of the
text), so the greedy pieces before the group never backtrack and the capture is
determined by `lazyCapture`. -/

/-- Lookahead `^[XY][:|-]` (single-letter headers, delimiter immediately after). -/
def laLetters (cs : List Char) (t : List Char) (p : Nat) : Bool :=
  lineStart t p && cs.any (fun c => charCIAt t p c) && classAt t (p+1)

/-- Lookahead `^(?:w₁|w₂)[:|-]` (full-word headers, delimiter immediately after). -/
def laWords (ws : List (List Char)) (t : List Char) (p : Nat) : Bool :=
  lineStart t p && ws.any (fun w =>
    match dropPrefixCI w (t.drop p) with
    | some r => classHead r
    | none => false)

/-- Lookahead `\n\s*(?:w₁|w₂)`: a newline, whitespace, then one of the words. -/
def laNlWords (ws : List (List Char)) (t : List Char) (p : Nat) : Bool :=
  t[p]? = some '\n' && ws.any (fun w => (dropPrefixCI w (skipWs (t.drop (p+1)))).isSome)

/-- Matcher for `^X\s*[:|-]?\s*(.*?)(?=LA|$)` (first pattern of a section). -/
def matchLetterHeader (x : Char) (la : List Char → Nat → Bool) (t : List Char) :
    Option (List Char) :=
  firstCapture t (fun p =>
    if lineStart t p && charCIAt t p x then
      some (lazyCapture t (idxAfter t (skipHdrSep (t.drop (p+1)))) (la t))
    else none)

/-- Matcher for `^word\s*[:|-]?\s*(.*?)(?=LA|$)` (second pattern of a section). -/
def matchWordHeader (w : List Char) (la : List Char → Nat → Bool) (t : List Char) :
    Option (List Char) :=
  firstCapture t (fun p =>
    if lineStart t p then
      match dropPrefixCI w (t.drop p) with
      | some r => some (lazyCapture t (idxAfter t (skipHdrSep r)) (la t))
      | none => none
    else none)

/-- Matcher for `(?:^|\n)\s*word\s*[:|-]?\s*(.*?)(?=LA|$)` (third pattern of a
section).  Both alternatives of `(?:^|\n)` reduce to skipping whitespace from
the scan position, since `\s*` absorbs the newline a `\n` alternative consumes. -/
def matchNlWordHeader (w : List Char) (la : List Char → Nat → Bool) (t : List Char) :
    Option (List Char) :=
  firstCapture t (fun p =>
    if lineStart t p || t[p]? = some '\n' then
      match dropPrefixCI w (skipWs (t.drop p)) with
      | some r => some (lazyCapture t (idxAfter t (skipHdrSep r)) (la t))
      | none => none
    else none)

/-- Greedy variants of the three header shapes for the PLAN patterns, whose
capture `(.*)` under `re.DOTALL` is the whole remaining text. -/
def matchLetterHeaderGreedy (x : Char) (t : List Char) : Option (List Char) :=
  firstCapture t (fun p =>
    if lineStart t p && charCIAt t p x then some (skipHdrSep (t.drop (p+1))) else none)

def matchWordHeaderGreedy (w : List Char) (t : List Char) : Option (List Char) :=
  firstCapture t (fun p =>
    if lineStart t p then
      match dropPrefixCI w (t.drop p) with
      | some r => some (skipHdrSep r)
      | none => none
    else none)

def matchNlWordHeaderGreedy (w : List Char) (t : List Char) : Option (List Char) :=
  firstCapture t (fun p =>
    if lineStart t p || t[p]? = some '\n' then
      match dropPrefixCI w (skipWs (t.drop p)) with
      | some r => some (skipHdrSep r)
      | none => none
    else none)

/-- `client\s+(?:reports?|states?|says?)\s+(.*?)(?=\n\s*(?:observed?|assessment|plan)|$)`:
the fourth SUBJECTIVE pattern.  The alternation is tried in source order with
the optional trailing letter preferred, and each alternative must be followed
by at least one whitespace character (`\s+`) before the capture begins. -/
def matchS4 (t : List Char) : Option (List Char) :=
  firstCapture t (fun p =>
    match dropPrefixCI (strL "client") (t.drop p) with
    | some r =>
      if isPySpace ((r.headD 'x')) && !r.isEmpty then
        let r1 := skipWs r
        match [strL "reports", strL "report", strL "states", strL "state",
               strL "says", strL "say"].findSome? (fun w =>
                 match dropPrefixCI w r1 with
                 | some r2 => if !r2.isEmpty && isPySpace (r2.headD 'x') then some r2 else none
                 | none => none) with
        | some r2 =>
          some (lazyCapture t (idxAfter t (skipWs r2))
            (laNlWords [strL "observe", strL "assessment", strL "plan"] t))
        | none => none
      else none
    | none => none)

/-- `(?:observed?|during\s+session)\s*(.*?)(?=\n\s*(?:assessment|plan)|$)`:
the fourth OBJECTIVE pattern (no delimiter class after the keyword). -/
def matchO4 (t : List Char) : Option (List Char) :=
  firstCapture t (fun p =>
    let l := t.drop p
    match (dropPrefixCI (strL "observed") l).orElse (fun _ =>
          (dropPrefixCI (strL "observe") l).orElse (fun _ =>
            match dropPrefixCI (strL "during") l with
            | some r =>
              if !r.isEmpty && isPySpace (r.headD 'x') then
                dropPrefixCI (strL "session") (skipWs r)
              else none
            | none => none)) with
    | some r =>
      some (lazyCapture t (idxAfter t (skipWs r))
        (laNlWords [strL "assessment", strL "plan"] t))
    | none => none)

/-- `(?:diagnosis|impression|clinical\s+opinion)\s*[:|-]?\s*(.*?)(?=\n\s*plan|$)`:
the fourth ASSESSMENT pattern. -/
def matchA4 (t : List Char) : Option (List Char) :=
  firstCapture t (fun p =>
    let l := t.drop p
    match (dropPrefixCI (strL "diagnosis") l).orElse (fun _ =>
          (dropPrefixCI (strL "impression") l).orElse (fun _ =>
            match dropPrefixCI (strL "clinical") l with
            | some r =>
              if !r.isEmpty && isPySpace (r.headD 'x') then
                dropPrefixCI (strL "opinion") (skipWs r)
              else none
            | none => none)) with
    | some r =>
      some (lazyCapture t (idxAfter t (skipHdrSep r)) (laNlWords [strL "plan"] t))
    | none => none)

/-- `(?:intervention|treatment|homework|next\s+steps?)\s*[:|-]?\s*(.*)`:
the fourth PLAN pattern (greedy capture to the end of the text). -/
def matchP4 (t : List Char) : Option (List Char) :=
  firstCapture t (fun p =>
    let l := t.drop p
    match (dropPrefixCI (strL "intervention") l).orElse (fun _ =>
          (dropPrefixCI (strL "treatment") l).orElse (fun _ =>
          (dropPrefixCI (strL "homework") l).orElse (fun _ =>
            match dropPrefixCI (strL "next") l with
            | some r =>
              if !r.isEmpty && isPySpace (r.headD 'x') then
                (dropPrefixCI (strL "steps") (skipWs r)).orElse (fun _ =>
                  dropPrefixCI (strL "step") (skipWs r))
              else none
            | none => none))) with
    | some r => some (skipHdrSep r)
    | none => none)

/-- The ordered pattern lists of `soap_patterns`, section by section. -/
def subjective_patterns : List (List Char → Option (List Char)) :=
  [matchLetterHeader 's' (laLetters ['o', 'a']),
   matchWordHeader (strL "subjective") (laWords [strL "objective", strL "assessment"]),
   matchNlWordHeader (strL "subjective") (fun t p => laNlWords [strL "objective", strL "assessment"] t p),
   matchS4]

def objective_patterns : List (List Char → Option (List Char)) :=
  [matchLetterHeader 'o' (laLetters ['a', 'p']),
   matchWordHeader (strL "objective") (laWords [strL "assessment", strL "plan"]),
   matchNlWordHeader (strL "objective") (fun t p => laNlWords [strL "assessment", strL "plan"] t p),
   matchO4]

def assessment_patterns : List (List Char → Option (List Char)) :=
  [matchLetterHeader 'a' (laLetters ['p']),
   matchWordHeader (strL "assessment") (laWords [strL "plan"]),
   matchNlWordHeader (strL "assessment") (fun t p => laNlWords [strL "plan"] t p),
   matchA4]

def plan_patterns : List (List Char → Option (List Char)) :=
  [matchLetterHeaderGreedy 'p',
   matchWordHeaderGreedy (strL "plan"),
   matchNlWordHeaderGreedy (strL "plan"),
   matchP4]

/-- The per-section extraction loop of `parse_soap_note` (lines 128-135): the
first pattern whose first match strips to content longer than 10 characters
provides the section; a matching pattern with short content does not stop the
cascade. -/
def tryPatterns (pats : List (List Char → Option (List Char))) (t : List Char) :
    Option (List Char) :=
  pats.findSome? (fun m =>
    match m t with
    | some cap => if 10 < (stripL cap).length then some (stripL cap) else none
    | none => none)

/- ## SOAP data model (soap_parser.py lines 9-46) -/

inductive SOAPSection where
  | subjective
  | objective
  | assessment
  | plan
  | unstructured
deriving DecidableEq

/-- Parsed SOAP note content (`SOAPContent`). -/
structure SOAPContent where
  subjective : List Char := []
  objective : List Char := []
  assessment : List Char := []
  plan : List Char := []
  unstructured : List Char := []
  is_soap_format : Bool := false
deriving DecidableEq

/-- The chunk metadata written by `create_soap_chunks` /
`_chunk_section_content`; `section_length` is absent on the unstructured chunk
and `is_partial_section` is absent (modelled `false`) except on sub-chunks of
an oversized section. -/
structure SOAPMeta where
  base : List (String × String)
  soap_section : SOAPSection
  is_soap_format : Bool
  section_summary : List Char
  section_length : Option Nat
  is_partial_section : Bool
deriving DecidableEq

/-- A chunk from a SOAP note (`SOAPChunk`). -/
structure SOAPChunk where
  content : List Char
  section_type : SOAPSection
  section_content_full : List Char
  metadata : SOAPMeta
deriving DecidableEq

/-- `parse_soap_note` (lines 113-152): detect, then try the four pattern
cascades; when nothing is found the text goes to the unstructured span while
`is_soap_format` keeps the value the detector produced. -/
def parse_soap_note (t : List Char) : SOAPContent :=
  if detect_soap_format t then
    let s := (tryPatterns subjective_patterns t).getD []
    let o := (tryPatterns objective_patterns t).getD []
    let a := (tryPatterns assessment_patterns t).getD []
    let pl := (tryPatterns plan_patterns t).getD []
    { subjective := s, objective := o, assessment := a, plan := pl,
      unstructured := if s = [] ∧ o = [] ∧ a = [] ∧ pl = [] then t else [],
      is_soap_format := true }
  else
    { unstructured := t, is_soap_format := false }

/- ## Chunk Builder (soap_parser.py lines 154-262) -/

/-- Is the previous processed character one of the sentence enders `[.!?]`? -/
def sentEndChar (c : Char) : Bool := c = '.' || c = '!' || c = '?'

/-- State machine for `re.split(r'(?<=[.!?])\s+', content)`: a separator is a
maximal whitespace run whose preceding character is a sentence ender; the
separator is removed.  `cur` is the current piece (reversed), `inWs` marks that
a separator run is being consumed, `prevEnd` that the last kept character was a
sentence ender. -/
def ssAux : List Char → List Char → Bool → Bool → List (List Char)
  | [], cur, _, _ => [cur.reverse]
  | c :: rest, cur, inWs, prevEnd =>
    if isPySpace c then
      if inWs then ssAux rest cur true false
      else if prevEnd then cur.reverse :: ssAux rest [] true false
      else ssAux rest (c :: cur) false false
    else ssAux rest (c :: cur) false (sentEndChar c)

/-- `re.split(r'(?<=[.!?])\s+', content)`. -/
def splitSentences (l : List Char) : List (List Char) := ssAux l [] false false

/-- Python `content.split()`: whitespace-separated words, no empty pieces. -/
def wordsAux : List Char → List Char → List (List Char)
  | [], cur => if cur.isEmpty then [] else [cur.reverse]
  | c :: rest, cur =>
    if isPySpace c then
      if cur.isEmpty then wordsAux rest [] else cur.reverse :: wordsAux rest []
    else wordsAux rest (c :: cur)

/-- `_create_section_summary` (lines 255-262): the content verbatim when it has
at most 20 words, otherwise the first 15 words joined by spaces plus an
ellipsis. -/
def create_section_summary (content : List Char) : List Char :=
  let ws := wordsAux content []
  if ws.length ≤ 20 then content
  else (List.intercalate [' '] (ws.take 15)) ++ strL "..."

/-- A sub-chunk emitted by the long-section loop: content is the stripped
accumulator, the summary and recorded length use the unstripped accumulator,
and `is_partial_section` is set. -/
def mkSub (full : List Char) (sec : SOAPSection) (base : List (String × String))
    (cur : List Char) : SOAPChunk :=
  { content := stripL cur, section_type := sec, section_content_full := full,
    metadata := { base := base, soap_section := sec, is_soap_format := true,
                  section_summary := create_section_summary cur,
                  section_length := some cur.length, is_partial_section := true } }

/-- The sentence-accumulation loop of `_chunk_section_content` (lines 215-251):
append a sentence (plus a space) while the accumulator stays within 600
characters, otherwise emit the stripped accumulator and restart from the
sentence; a final non-blank accumulator is emitted as well. -/
def chunkLoop (full : List Char) (sec : SOAPSection) (base : List (String × String)) :
    List (List Char) → List Char → List SOAPChunk
  | [], cur => if stripL cur ≠ [] then [mkSub full sec base cur] else []
  | s :: rest, cur =>
    if cur.length + s.length ≤ 600 then chunkLoop full sec base rest (cur ++ s ++ [' '])
    else if cur ≠ [] then mkSub full sec base cur :: chunkLoop full sec base rest (s ++ [' '])
    else chunkLoop full sec base rest (s ++ [' '])

/-- `_chunk_section_content` (lines 191-253): a section of at most 800
characters becomes a single whole-section chunk; a longer section is split on
sentence boundaries into sub-chunks. -/
def chunk_section_content (content : List Char) (sec : SOAPSection)
    (base : List (String × String)) : List SOAPChunk :=
  if content.length ≤ 800 then
    [{ content := content, section_type := sec, section_content_full := content,
       metadata := { base := base, soap_section := sec, is_soap_format := true,
                     section_summary := create_section_summary content,
                     section_length := some content.length, is_partial_section := false } }]
  else
    chunkLoop content sec base (splitSentences content) []

/-- `create_soap_chunks` (lines 154-189): one unstructured chunk when the note
is not in SOAP format, otherwise the per-section chunks of every non-blank
section (an all-empty structured parse therefore yields no chunks at all). -/
def create_soap_chunks (sc : SOAPContent) (base : List (String × String)) :
    List SOAPChunk :=
  if !sc.is_soap_format then
    [{ content := sc.unstructured, section_type := SOAPSection.unstructured,
       section_content_full := sc.unstructured,
       metadata := { base := base, soap_section := SOAPSection.unstructured,
                     is_soap_format := false,
                     section_summary := create_section_summary sc.unstructured,
                     section_length := none, is_partial_section := false } }]
  else
    [(SOAPSection.subjective, sc.subjective), (SOAPSection.objective, sc.objective),
     (SOAPSection.assessment, sc.assessment), (SOAPSection.plan, sc.plan)].flatMap
      (fun pr => if pr.2 ≠ [] ∧ stripL pr.2 ≠ [] then chunk_section_content pr.2 pr.1 base else [])

/- ## Retrieval pipeline (rag_engine.py lines 234-464)

Scores are modelled as exact rationals.  A retrieval candidate is the chunk
dictionary built from a similarity-search hit; the date/title metadata boost
computed by the reranker (lines 292-312) reads the wall clock
(`datetime.now()`), so that already-accumulated boost enters the model as the
field `metadata_boost` of the candidate. -/

structure RChunk where
  content : List Char
  distance : ℚ
  /-- `metadata.get('meeting_id')`; `none` models an absent key. -/
  meeting_id : Option String
  /-- The accumulated date-recency and title-salience boost of lines 292-312,
  abstracted because its date part depends on the current wall-clock time. -/
  metadata_boost : ℚ
  composite_score : ℚ := 0
  keyword_matches : Nat := 0
  vector_similarity : ℚ := 0
deriving DecidableEq

/-- `keyword_matches` (line 289): how many query entities occur, lower-cased,
in the lower-cased candidate content. -/
def keywordMatchCount (query_entities : List (List Char)) (c : RChunk) : Nat :=
  query_entities.countP (fun e => containsSub (lowerL e) (lowerL c.content))

/-- The per-candidate scoring of `_rerank_chunks_with_keyword_matching`
(lines 281-323). -/
def score_chunk (query_entities : List (List Char)) (c : RChunk) : RChunk :=
  let vector_similarity := 1 - c.distance
  let km := keywordMatchCount query_entities c
  let keyword_score : ℚ := min ((km : ℚ) / (max (query_entities.length : ℚ) 1)) 1
  { c with
    composite_score :=
      0.6 * vector_similarity + 0.3 * keyword_score + 0.1 * c.metadata_boost,
    keyword_matches := km,
    vector_similarity := vector_similarity }

/-- The comparison of `chunks.sort(key=composite_score, reverse=True)`: a
stable descending sort takes the left element whenever its score is at least
the right one. -/
def rerankLE (a b : RChunk) : Bool := decide (b.composite_score ≤ a.composite_score)

/-- `_rerank_chunks_with_keyword_matching` (lines 279-327): fill in the scores,
then sort descending by composite score (Python sort is stable). -/
def rerank_chunks_with_keyword_matching (chunks : List RChunk)
    (query_entities : List (List Char)) : List RChunk :=
  (chunks.map (score_chunk query_entities)).mergeSort rerankLE

/-- The key under which a candidate is counted by the diversity filter:
`chunk.get('metadata', {}).get('meeting_id', 'unknown')`. -/
def chunkMeetingKey (c : RChunk) : String := c.meeting_id.getD "unknown"

/-- The walk of `_apply_diversity_filtering` (lines 337-343) with its running
per-meeting counts (an association list where the newest entry shadows). -/
def diversityGo (maxPer : Nat) : List RChunk → List (String × Nat) → List RChunk
  | [], _ => []
  | c :: rest, counts =>
    let k := chunkMeetingKey c
    let cnt := (counts.lookup k).getD 0
    if cnt < maxPer then c :: diversityGo maxPer rest ((k, cnt + 1) :: counts)
    else diversityGo maxPer rest counts

/-- `_apply_diversity_filtering` (line 329): the declared default for
`max_chunks_per_meeting` is 3. -/
def apply_diversity_filtering (chunks : List RChunk)
    (max_chunks_per_meeting : Nat := 3) : List RChunk :=
  diversityGo max_chunks_per_meeting chunks []

/-- Python `max` over a nonempty score list, as a fold from the first score. -/
def listMaxQ (x : ℚ) (l : List ℚ) : ℚ := l.foldl max x

/-- `_apply_dynamic_threshold` (lines 347-378): pick a threshold from the mean
and maximum composite score, keep the candidates at or above it, and fall back
to the top `min_chunks` candidates when too few pass while enough exist. -/
def apply_dynamic_threshold (chunks : List RChunk) (min_chunks : Nat) : List RChunk :=
  match chunks with
  | [] => []
  | c :: rest =>
    let scores := (c :: rest).map (fun ch => ch.composite_score)
    let mean_score := scores.sum / (scores.length : ℚ)
    let max_score := listMaxQ c.composite_score (rest.map (fun ch => ch.composite_score))
    let threshold : ℚ :=
      if 0.8 < max_score then max 0.6 mean_score
      else if 0.6 < max_score then max 0.4 (mean_score * 0.8)
      else max 0.3 (mean_score * 0.6)
    let filtered := (c :: rest).filter (fun ch => threshold ≤ ch.composite_score)
    if filtered.length < min_chunks ∧ min_chunks ≤ (c :: rest).length then
      (c :: rest).take min_chunks
    else filtered

/-- `retrieve_relevant_chunks` (lines 380-464).  The two external calls are
injected: `query_embedding` is what `embed_text` returned (it catches its own
exceptions and yields `[]`, treated as failure at line 389), and
`search_result` is the outcome of the similarity-search query plus result
formatting (an exception there is caught by the surrounding `try`/`except`,
which returns `[]`).  On success the pipeline reranks, diversity-filters with
limit 2, applies the dynamic threshold with minimum 2 and truncates to
`top_k`. -/
def retrieve_relevant_chunks (query_embedding : List ℚ)
    (search_result : Except String (List RChunk))
    (query_entities : List (List Char)) (top_k : Nat) : List RChunk :=
  if query_embedding.isEmpty then []
  else
    match search_result with
    | Except.error _ => []
    | Except.ok relevant_chunks =>
      if relevant_chunks.isEmpty then []
      else
        (apply_dynamic_threshold
          (apply_diversity_filtering
            (rerank_chunks_with_keyword_matching relevant_chunks query_entities) 2)
          2).take top_k

/-- Non-whitespace characters of a text, the normal form used to compare texts
up to whitespace differences. -/
def filterNW (l : List Char) : List Char := l.filter (fun c => !isPySpace c)

/-- A candidate whose composite score is below every threshold floor, used as a
concrete input for the dynamic-threshold claims. -/
def lowScoreChunk : RChunk :=
  { content := [], distance := 0, meeting_id := none, metadata_boost := 0,
    composite_score := 1/10 }

/-- A candidate carrying meeting identifier m1, used as a concrete input for
the diversity-filter claims. -/
def meetingOneChunk : RChunk :=
  { content := [], distance := 0, meeting_id := some "m1", metadata_boost := 0 }

/-- Concrete candidates and entity list exercising the reranker. -/
def sampleChunkA : RChunk :=
  { content := strL "Discussed anxiety and progress", distance := 1/4,
    meeting_id := some "m1", metadata_boost := 1/10 }

def sampleChunkB : RChunk :=
  { content := strL "Reviewed goals for work", distance := 1/2,
    meeting_id := some "m2", metadata_boost := 0 }

def sampleEntities : List (List Char) := [strL "anxiety", strL "goals"]

/- # Theorems -/

/- ## Diversity filter lemmas -/

theorem diversityGo_sublist (maxPer : Nat) :
    ∀ (l : List RChunk) (counts : List (String × Nat)),
      (diversityGo maxPer l counts).Sublist l := by
  intro l
  induction l with
  | nil => intro counts; simp [diversityGo]
  | cons c rest ih =>
    intro counts
    simp only [diversityGo]
    split
    · exact (ih _).cons₂ c
    · exact (ih _).cons c

theorem diversityGo_count (maxPer : Nat) (mid : String) :
    ∀ (l : List RChunk) (counts : List (String × Nat)),
      (diversityGo maxPer l counts).countP (fun ch => chunkMeetingKey ch == mid)
        ≤ maxPer - ((counts.lookup mid).getD 0) := by
  intro l
  induction l with
  | nil => intro counts; simp [diversityGo]
  | cons c rest ih =>
    intro counts
    simp only [diversityGo]
    by_cases hcnt : ((counts.lookup (chunkMeetingKey c)).getD 0) < maxPer
    · rw [if_pos hcnt]
      by_cases hk : chunkMeetingKey c = mid
      · subst hk
        have hrec := ih ((chunkMeetingKey c, (counts.lookup (chunkMeetingKey c)).getD 0 + 1) :: counts)
        have hlook : (((chunkMeetingKey c, (counts.lookup (chunkMeetingKey c)).getD 0 + 1) :: counts).lookup (chunkMeetingKey c))
            = some ((counts.lookup (chunkMeetingKey c)).getD 0 + 1) := by
          simp [List.lookup]
        rw [hlook] at hrec
        simp only [Option.getD_some] at hrec
        rw [List.countP_cons]
        simp only [beq_self_eq_true, if_true]
        omega
      · have hrec := ih ((chunkMeetingKey c, (counts.lookup (chunkMeetingKey c)).getD 0 + 1) :: counts)
        have hlook : (((chunkMeetingKey c, (counts.lookup (chunkMeetingKey c)).getD 0 + 1) :: counts).lookup mid)
            = counts.lookup mid := by
          simp only [List.lookup]
          have hmk : (mid == chunkMeetingKey c) = false := by
            simp [Ne.symm hk]
          rw [hmk]
        rw [hlook] at hrec
        rw [List.countP_cons]
        have hpc : (chunkMeetingKey c == mid) = false := by
          simpa using hk
        simpa [hpc] using hrec
    · rw [if_neg hcnt]
      exact ih counts

/-- C5: for every input list and every maxPerMeeting, the diversity filter
returns a subsequence of its input and at most maxPerMeeting candidates of any
single meeting identifier. -/
theorem apply_diversity_filtering_bounds (chunks : List RChunk) (maxPer : Nat) :
    (apply_diversity_filtering chunks maxPer).Sublist chunks ∧
    ∀ mid : String,
      (apply_diversity_filtering chunks maxPer).countP
        (fun ch => chunkMeetingKey ch == mid) ≤ maxPer := by
  constructor
  · exact diversityGo_sublist maxPer chunks []
  · intro mid
    simpa [apply_diversity_filtering] using diversityGo_count maxPer mid chunks []

/-- C9 counterexample: invoking the diversity filter without an explicit
maxPerMeeting keeps three candidates of the same meeting, so the limit used is
not 2; passing 2 explicitly behaves differently on the same input. -/
theorem diversity_default_not_two :
    2 < (apply_diversity_filtering [meetingOneChunk, meetingOneChunk, meetingOneChunk]).countP
          (fun ch => chunkMeetingKey ch == "m1")
    ∧ apply_diversity_filtering [meetingOneChunk, meetingOneChunk, meetingOneChunk]
        ≠ apply_diversity_filtering [meetingOneChunk, meetingOneChunk, meetingOneChunk] 2 := by
  decide

/-- C9 amended: invoked without an explicit maxPerMeeting argument, the
diversity filter uses its declared default of 3 (the retrieval pipeline passes
2 explicitly at its call site), so a default invocation keeps at most three
candidates per meeting identifier. -/
theorem diversity_default_is_three :
    (∀ chunks : List RChunk,
        apply_diversity_filtering chunks = apply_diversity_filtering chunks 3)
    ∧ ∀ (chunks : List RChunk) (mid : String),
        (apply_diversity_filtering chunks).countP
          (fun ch => chunkMeetingKey ch == mid) ≤ 3 := by
  refine ⟨fun chunks => rfl, fun chunks mid => ?_⟩
  simpa [apply_diversity_filtering] using diversityGo_count 3 mid chunks []

/- ## Detector -/

/-- C7: the detector returns true exactly when at least two explicit header
patterns match or keywords of at least two categories occur; in particular it
is true whenever two header patterns match, and false whenever both counts are
below two. -/
theorem detect_soap_format_characterization (t : List Char) :
    detect_soap_format t = true ↔
      2 ≤ explicit_header_count t ∨ 2 ≤ keyword_category_count t := by
  unfold detect_soap_format
  by_cases h : 2 ≤ explicit_header_count t <;> simp [h]

/- ## Parser fallback (C1, C10) -/

/-- C1: at the concrete input "expressed goals" the detector reports
structured, no extraction pattern yields a span, and `parse_soap_note` keeps
`is_soap_format = true` with all four spans empty and the full text in the
unstructured span — it does not fall back to `isStructured = false` as the
specification requires. -/
theorem parse_soap_note_no_fallback_on_empty_sections :
    detect_soap_format (strL "expressed goals") = true
    ∧ (parse_soap_note (strL "expressed goals")).is_soap_format = true
    ∧ (parse_soap_note (strL "expressed goals")).subjective = []
    ∧ (parse_soap_note (strL "expressed goals")).objective = []
    ∧ (parse_soap_note (strL "expressed goals")).assessment = []
    ∧ (parse_soap_note (strL "expressed goals")).plan = []
    ∧ (parse_soap_note (strL "expressed goals")).unstructured = strL "expressed goals" := by
  decide

/-- C10: there is a non-empty text on which the detector reports structured,
parsing populates only the unstructured span while keeping
`is_soap_format = true`, and `create_soap_chunks` then produces no chunks at
all. -/
theorem create_soap_chunks_zero_chunks_exists :
    ∃ t : List Char, t ≠ []
      ∧ detect_soap_format t = true
      ∧ (parse_soap_note t).is_soap_format = true
      ∧ (parse_soap_note t).subjective = []
      ∧ (parse_soap_note t).objective = []
      ∧ (parse_soap_note t).assessment = []
      ∧ (parse_soap_note t).plan = []
      ∧ (parse_soap_note t).unstructured = t
      ∧ create_soap_chunks (parse_soap_note t) [] = [] := by
  exact ⟨strL "described. recommended follow-up", by decide⟩

/- ## Dynamic threshold (C3, C6) -/

/-- C6: on a non-empty candidate list the dynamic threshold is exactly
max(0.6, mean) when the maximum exceeds 0.8, else max(0.4, 0.8·mean) when it
exceeds 0.6, else max(0.3, 0.6·mean), and exactly the candidates with
composite score at or above it are kept before the minimum-count rescue. -/
theorem apply_dynamic_threshold_characterization (c : RChunk) (rest : List RChunk)
    (m : Nat) :
    apply_dynamic_threshold (c :: rest) m =
      (let meanScore := (((c :: rest).map (fun ch => ch.composite_score)).sum
          / (((c :: rest).map (fun ch => ch.composite_score)).length : ℚ))
       let maxScore := listMaxQ c.composite_score
          (rest.map (fun ch => ch.composite_score))
       let threshold : ℚ :=
         if 0.8 < maxScore then max 0.6 meanScore
         else if 0.6 < maxScore then max 0.4 (0.8 * meanScore)
         else max 0.3 (0.6 * meanScore)
       let kept := (c :: rest).filter (fun ch => threshold ≤ ch.composite_score)
       if kept.length < m ∧ m ≤ (c :: rest).length then (c :: rest).take m else kept) := by
  simp only [apply_dynamic_threshold, mul_comm]

/-- C3 counterexample: a single candidate scoring 0.1 with minChunks = 2 is
entirely discarded — the output is smaller than min(minChunks, inputSize). -/
theorem dynamic_threshold_below_min_on_small_input :
    (apply_dynamic_threshold [lowScoreChunk] 2).length
      < min 2 [lowScoreChunk].length := by
  have h : apply_dynamic_threshold [lowScoreChunk] 2 = [] := by
    simp only [apply_dynamic_threshold, lowScoreChunk, listMaxQ, List.map_cons, List.map_nil,
      List.sum_cons, List.sum_nil, List.foldl_nil, List.length_cons, List.length_nil]
    norm_num
  rw [h]
  simp only [List.length_nil, List.length_cons]
  omega

/-- C3 amended: whenever the input holds at least minChunks candidates the
dynamic threshold returns at least minChunks of them (hence at least
min(minChunks, inputSize)); on a smaller non-empty input the rescue does not
apply and the output may be smaller than the input, even empty. -/
theorem ite_take_filter_length (l f : List RChunk) (m : Nat) (h : m ≤ l.length) :
    m ≤ (if f.length < m ∧ m ≤ l.length then l.take m else f).length := by
  by_cases hc : f.length < m ∧ m ≤ l.length
  · rw [if_pos hc]
    simp only [List.length_take]
    omega
  · rw [if_neg hc]
    rw [not_and] at hc
    have := fun hlt => hc hlt h
    omega

theorem apply_dynamic_threshold_min_count (chunks : List RChunk) (m : Nat)
    (h : m ≤ chunks.length) : m ≤ (apply_dynamic_threshold chunks m).length := by
  match chunks with
  | [] => simpa [apply_dynamic_threshold] using h
  | c :: rest =>
    simp only [apply_dynamic_threshold]
    exact ite_take_filter_length (c :: rest) _ m h

/-- C3 amended, witness: two low-scoring candidates with minChunks = 2 are both
returned by the rescue. -/
theorem apply_dynamic_threshold_min_count_witness :
    2 ≤ (apply_dynamic_threshold [lowScoreChunk, lowScoreChunk] 2).length :=
  apply_dynamic_threshold_min_count [lowScoreChunk, lowScoreChunk] 2 (by decide)

/- ## Composite reranker (C4) -/

theorem rerankLE_trans (a b c : RChunk) :
    rerankLE a b → rerankLE b c → rerankLE a c := by
  simp only [rerankLE, decide_eq_true_eq]
  intro hab hbc
  exact hbc.trans hab

theorem rerankLE_total (a b : RChunk) : rerankLE a b || rerankLE b a := by
  simp only [rerankLE, Bool.or_eq_true, decide_eq_true_eq]
  exact le_total b.composite_score a.composite_score

/-- C4: the reranker fills each candidate's composite score with
0.6·(1 − distance) + 0.3·min(keywordMatches / max(|entities|, 1), 1) +
0.1·metadataBoost — keywordMatches counting entities whose lower-cased form
occurs in the lower-cased content — and returns a permutation of the scored
input that is sorted descending by composite score and stable: the candidates
of any fixed composite score appear exactly in their input order. -/
theorem rerank_scores_sorted_stable (chunks : List RChunk)
    (query_entities : List (List Char)) (q : ℚ) (c : RChunk) (hc : c ∈ chunks) :
    (rerank_chunks_with_keyword_matching chunks query_entities).Perm
        (chunks.map (score_chunk query_entities))
    ∧ List.Pairwise (fun a b => b.composite_score ≤ a.composite_score)
        (rerank_chunks_with_keyword_matching chunks query_entities)
    ∧ (rerank_chunks_with_keyword_matching chunks query_entities).filter
          (fun x => x.composite_score == q)
        = (chunks.map (score_chunk query_entities)).filter
            (fun x => x.composite_score == q)
    ∧ (score_chunk query_entities c).composite_score
        = 0.6 * (1 - c.distance)
          + 0.3 * min ((keywordMatchCount query_entities c : ℚ)
                        / max (query_entities.length : ℚ) 1) 1
          + 0.1 * c.metadata_boost := by
  refine ⟨?_, ?_, ?_, rfl⟩
  · exact List.mergeSort_perm (chunks.map (score_chunk query_entities)) rerankLE
  · have hs := List.sorted_mergeSort rerankLE_trans rerankLE_total
      (chunks.map (score_chunk query_entities))
    exact hs.imp (fun h => by simpa [rerankLE] using h)
  · simp only [rerank_chunks_with_keyword_matching]
    set L := chunks.map (score_chunk query_entities) with hL
    set p := fun x : RChunk => x.composite_score == q with hp
    have hmem : ∀ a ∈ L.filter p, ∀ b ∈ L.filter p, rerankLE a b = true := by
      intro a ha b hb
      have ha' : a.composite_score = q := by
        have := List.of_mem_filter ha
        simpa [hp] using this
      have hb' : b.composite_score = q := by
        have := List.of_mem_filter hb
        simpa [hp] using this
      simp [rerankLE, ha', hb']
    have hpw : (L.filter p).Pairwise (fun a b => rerankLE a b = true) :=
      List.pairwise_of_forall_mem_list hmem
    have hsub : List.Sublist (L.filter p) (L.mergeSort rerankLE) :=
      List.sublist_mergeSort rerankLE_trans rerankLE_total hpw (List.filter_sublist L)
    have hff : (L.filter p).filter p = L.filter p :=
      List.filter_eq_self.mpr (fun a ha => List.of_mem_filter ha)
    have hsub2 : List.Sublist (L.filter p) ((L.mergeSort rerankLE).filter p) := by
      have := hsub.filter p
      rwa [hff] at this
    have hperm : List.Perm ((L.mergeSort rerankLE).filter p) (L.filter p) :=
      (List.mergeSort_perm L rerankLE).filter p
    exact (hsub2.eq_of_length hperm.length_eq.symm).symm

/-- C4 witness: the reranker theorem at two concrete candidates and a concrete
entity list. -/
theorem rerank_scores_sorted_stable_witness :
    (rerank_chunks_with_keyword_matching [sampleChunkA, sampleChunkB] sampleEntities).Perm
        ([sampleChunkA, sampleChunkB].map (score_chunk sampleEntities))
    ∧ List.Pairwise (fun a b => b.composite_score ≤ a.composite_score)
        (rerank_chunks_with_keyword_matching [sampleChunkA, sampleChunkB] sampleEntities)
    ∧ (rerank_chunks_with_keyword_matching [sampleChunkA, sampleChunkB] sampleEntities).filter
          (fun x => x.composite_score == 1)
        = ([sampleChunkA, sampleChunkB].map (score_chunk sampleEntities)).filter
            (fun x => x.composite_score == 1)
    ∧ (score_chunk sampleEntities sampleChunkA).composite_score
        = 0.6 * (1 - sampleChunkA.distance)
          + 0.3 * min ((keywordMatchCount sampleEntities sampleChunkA : ℚ)
                        / max (sampleEntities.length : ℚ) 1) 1
          + 0.1 * sampleChunkA.metadata_boost :=
  rerank_scores_sorted_stable [sampleChunkA, sampleChunkB] sampleEntities 1
    sampleChunkA (List.mem_cons_self sampleChunkA [sampleChunkB])

/- ## Retrieval entry point (C8) -/

/-- C8: when the embedding call fails (empty vector) or the similarity-search
call fails (exception), the retrieval entry point returns the empty list; being
a total function it raises nothing. -/
theorem retrieve_relevant_chunks_external_failure (emb : List ℚ)
    (sr : Except String (List RChunk)) (ents : List (List Char)) (k : Nat)
    (h : emb = [] ∨ ∃ msg, sr = Except.error msg) :
    retrieve_relevant_chunks emb sr ents k = [] := by
  rcases h with h | ⟨msg, h⟩
  · subst h; rfl
  · subst h
    by_cases he : emb.isEmpty <;> simp [retrieve_relevant_chunks, he]

/-- C8 witness: a failed (empty) embedding yields the empty result. -/
theorem retrieve_relevant_chunks_external_failure_witness :
    retrieve_relevant_chunks [] (Except.ok [sampleChunkA]) [] 5 = [] :=
  retrieve_relevant_chunks_external_failure [] (Except.ok [sampleChunkA]) [] 5
    (Or.inl rfl)


/- ## Chunk builder sub-chunk properties (C2) -/

theorem filterNW_dropWhile (l : List Char) :
    filterNW (l.dropWhile isPySpace) = filterNW l := by
  induction l with
  | nil => rfl
  | cons c rest ih =>
    by_cases h : isPySpace c
    · rw [List.dropWhile_cons_of_pos h, ih]
      simp [filterNW, List.filter_cons, h]
    · rw [List.dropWhile_cons_of_neg h]

theorem filterNW_reverse (l : List Char) :
    filterNW l.reverse = (filterNW l).reverse :=
  List.filter_reverse _ l

theorem filterNW_stripL (l : List Char) : filterNW (stripL l) = filterNW l := by
  unfold stripL
  rw [filterNW_reverse, filterNW_dropWhile, filterNW_reverse, List.reverse_reverse,
    filterNW_dropWhile]

theorem filterNW_append (a b : List Char) :
    filterNW (a ++ b) = filterNW a ++ filterNW b := by
  simp [filterNW]

theorem filterNW_space : filterNW [' '] = [] := rfl

theorem filterNW_nil : filterNW [] = [] := rfl

theorem stripL_append_space (l : List Char) : stripL (l ++ [' ']) = stripL l := by
  unfold stripL
  rw [List.dropWhile_append]
  by_cases h : ((l.dropWhile isPySpace).isEmpty)
  · rw [if_pos h]
    rw [List.isEmpty_iff] at h
    rw [h]
    simp [isPySpace]
  · rw [if_neg h]
    rw [List.reverse_append]
    simp [List.dropWhile_cons, isPySpace]

theorem stripL_length_le (l : List Char) : (stripL l).length ≤ l.length := by
  unfold stripL
  have h1 := (List.dropWhile_sublist (p := isPySpace) (l := l)).length_le
  have h2 := (List.dropWhile_sublist (p := isPySpace)
    (l := (l.dropWhile isPySpace).reverse)).length_le
  simp only [List.length_reverse] at h2 ⊢
  omega

theorem chunkLoop_content_bound (full : List Char) (sec : SOAPSection)
    (base : List (String × String)) (S : List (List Char)) :
    ∀ (sents : List (List Char)) (cur : List Char),
      (∀ s ∈ sents, s ∈ S) →
      ((stripL cur).length ≤ 600 ∨ ∃ s ∈ S, stripL cur = stripL s) →
      ∀ ch ∈ chunkLoop full sec base sents cur,
        ch.content.length ≤ 600 ∨ ∃ s ∈ S, ch.content = stripL s := by
  intro sents
  induction sents with
  | nil =>
    intro cur _ hcur ch hch
    simp only [chunkLoop] at hch
    by_cases hne : stripL cur ≠ []
    · rw [if_pos hne] at hch
      rw [List.mem_singleton] at hch
      subst hch
      exact hcur
    · rw [if_neg hne] at hch
      exact absurd hch (List.not_mem_nil ch)
  | cons s rest ih =>
    intro cur hsub hcur ch hch
    simp only [chunkLoop] at hch
    by_cases h1 : cur.length + s.length ≤ 600
    · rw [if_pos h1] at hch
      refine ih (cur ++ s ++ [' ']) (fun x hx => hsub x (List.mem_cons_of_mem s hx))
        (Or.inl ?_) ch hch
      rw [stripL_append_space]
      have := stripL_length_le (cur ++ s)
      simp only [List.length_append] at this
      omega
    · rw [if_neg h1] at hch
      have hnext : (stripL (s ++ [' '])).length ≤ 600 ∨
          ∃ x ∈ S, stripL (s ++ [' ']) = stripL x :=
        Or.inr ⟨s, hsub s (List.mem_cons_self s rest), by rw [stripL_append_space]⟩
      by_cases h2 : cur ≠ []
      · rw [if_pos h2] at hch
        rcases List.mem_cons.mp hch with hch | hch
        · subst hch
          exact hcur
        · exact ih (s ++ [' ']) (fun x hx => hsub x (List.mem_cons_of_mem s hx)) hnext ch hch
      · rw [if_neg h2] at hch
        exact ih (s ++ [' ']) (fun x hx => hsub x (List.mem_cons_of_mem s hx)) hnext ch hch

theorem chunkLoop_partial (full : List Char) (sec : SOAPSection)
    (base : List (String × String)) :
    ∀ (sents : List (List Char)) (cur : List Char),
      ∀ ch ∈ chunkLoop full sec base sents cur,
        ch.metadata.is_partial_section = true := by
  intro sents
  induction sents with
  | nil =>
    intro cur ch hch
    simp only [chunkLoop] at hch
    by_cases hne : stripL cur ≠ []
    · rw [if_pos hne] at hch
      rw [List.mem_singleton] at hch
      subst hch
      rfl
    · rw [if_neg hne] at hch
      exact absurd hch (List.not_mem_nil ch)
  | cons s rest ih =>
    intro cur ch hch
    simp only [chunkLoop] at hch
    by_cases h1 : cur.length + s.length ≤ 600
    · rw [if_pos h1] at hch
      exact ih _ ch hch
    · rw [if_neg h1] at hch
      by_cases h2 : cur ≠ []
      · rw [if_pos h2] at hch
        rcases List.mem_cons.mp hch with hch | hch
        · subst hch
          rfl
        · exact ih _ ch hch
      · rw [if_neg h2] at hch
        exact ih _ ch hch

theorem chunkLoop_reconstruct (full : List Char) (sec : SOAPSection)
    (base : List (String × String)) :
    ∀ (sents : List (List Char)) (cur : List Char),
      filterNW (((chunkLoop full sec base sents cur).map (fun ch => ch.content)).flatten)
        = filterNW cur ++ filterNW sents.flatten := by
  intro sents
  induction sents with
  | nil =>
    intro cur
    simp only [chunkLoop]
    by_cases hne : stripL cur ≠ []
    · rw [if_pos hne]
      simp only [List.map_cons, List.map_nil, List.flatten_cons, List.flatten_nil,
        List.append_nil, mkSub]
      rw [filterNW_stripL, filterNW_nil, List.append_nil]
    · rw [if_neg hne]
      rw [not_not] at hne
      have hcur0 : filterNW cur = [] := by
        rw [← filterNW_stripL, hne]
        rfl
      simp only [List.map_nil, List.flatten_nil, hcur0]
      rfl
  | cons s rest ih =>
    intro cur
    simp only [chunkLoop]
    by_cases h1 : cur.length + s.length ≤ 600
    · rw [if_pos h1, ih]
      simp only [List.flatten_cons]
      rw [filterNW_append (cur ++ s) [' '], filterNW_append cur s, filterNW_space,
        filterNW_append s rest.flatten]
      simp [List.append_assoc]
    · rw [if_neg h1]
      by_cases h2 : cur ≠ []
      · rw [if_pos h2]
        simp only [List.map_cons, List.flatten_cons, mkSub]
        rw [filterNW_append, filterNW_stripL, ih, filterNW_append s [' '], filterNW_space,
          List.append_nil, filterNW_append s rest.flatten]
      · rw [if_neg h2]
        rw [not_not] at h2
        subst h2
        rw [ih]
        rw [filterNW_append s [' '], filterNW_space, List.append_nil, List.flatten_cons,
          filterNW_append s rest.flatten]
        rfl

theorem ssAux_join (l : List Char) :
    ∀ (cur : List Char) (inWs prevEnd : Bool),
      filterNW ((ssAux l cur inWs prevEnd).flatten) = filterNW cur.reverse ++ filterNW l := by
  induction l with
  | nil =>
    intro cur inWs prevEnd
    simp [ssAux, filterNW]
  | cons c rest ih =>
    intro cur inWs prevEnd
    simp only [ssAux]
    by_cases hws : isPySpace c
    · rw [if_pos hws]
      cases inWs with
      | true =>
        rw [if_pos rfl, ih]
        simp [filterNW, List.filter_cons, hws]
      | false =>
        rw [if_neg (by simp)]
        cases prevEnd with
        | true =>
          rw [if_pos rfl]
          simp only [List.flatten_cons]
          rw [filterNW_append, ih]
          simp [filterNW, List.filter_cons, hws]
        | false =>
          rw [if_neg (by simp), ih]
          simp [filterNW, List.filter_cons, hws, List.append_assoc]
    · rw [if_neg hws, ih]
      simp [filterNW, List.filter_cons, hws, List.append_assoc]

theorem splitSentences_join (l : List Char) :
    filterNW (splitSentences l).flatten = filterNW l := by
  have h := ssAux_join l [] false false
  simpa [splitSentences] using h

set_option maxRecDepth 10000 in
/-- C2 counterexample: a section of 801 identical non-whitespace characters has
no sentence boundary, so the single emitted sub-chunk holds all 801 characters,
exceeding the claimed 600-character bound. -/
theorem chunk_section_content_can_exceed_600 :
    800 < (List.replicate 801 'x').length ∧
    ∃ ch ∈ chunk_section_content (List.replicate 801 'x') SOAPSection.plan [],
      600 < ch.content.length := by
  decide

/-- C2 amended: for a section longer than 800 characters every emitted
sub-chunk has `isPartialSection = true` and is either at most 600 characters
long or the trimmed form of a single sentence of the sentence split (a lone
sentence longer than 600 characters is emitted whole); concatenating the
sub-chunk contents reconstructs the section content up to whitespace. -/
theorem chunk_section_content_long (content : List Char) (sec : SOAPSection)
    (base : List (String × String)) (h : 800 < content.length) :
    (∀ ch ∈ chunk_section_content content sec base,
       (ch.content.length ≤ 600 ∨ ∃ s ∈ splitSentences content, ch.content = stripL s)
       ∧ ch.metadata.is_partial_section = true)
    ∧ filterNW (((chunk_section_content content sec base).map (fun ch => ch.content)).flatten)
        = filterNW content := by
  have hgt : ¬ content.length ≤ 800 := by omega
  simp only [chunk_section_content, if_neg hgt]
  refine ⟨fun ch hch => ⟨?_, ?_⟩, ?_⟩
  · refine chunkLoop_content_bound content sec base (splitSentences content)
      (splitSentences content) [] (fun s hs => hs) (Or.inl ?_) ch hch
    show (stripL []).length ≤ 600
    simp [stripL]
  · exact chunkLoop_partial content sec base (splitSentences content) [] ch hch
  · rw [chunkLoop_reconstruct, splitSentences_join]
    rfl

/-- C2 amended, witness: the amended theorem at the concrete 801-character
single-sentence section. -/
theorem chunk_section_content_long_witness :
    (∀ ch ∈ chunk_section_content (List.replicate 801 'x') SOAPSection.plan [],
       (ch.content.length ≤ 600 ∨
          ∃ s ∈ splitSentences (List.replicate 801 'x'), ch.content = stripL s)
       ∧ ch.metadata.is_partial_section = true)
    ∧ filterNW (((chunk_section_content (List.replicate 801 'x') SOAPSection.plan []).map
          (fun ch => ch.content)).flatten)
        = filterNW (List.replicate 801 'x') :=
  chunk_section_content_long (List.replicate 801 'x') SOAPSection.plan []
    (by rw [List.length_replicate]; omega)
